import Mathlib

/-!
Verification of the fedrag acquisition pipeline.

Shallow embedding of the crawler core: the document model with its
content-addressed identifier (`models/document.py`), the JSONL document store
with URL deduplication (`storage/document_store.py`), the shared scraping loop
and orchestrator (`scrapers/base.py`, `scrapers/orchestrator.py`), the retry
combinator (`utils/retry.py`) and the rate limiter (`utils/rate_limiter.py`).

External effects are made explicit: the hash is implemented concretely
(SHA-256, as `hashlib.sha256`), file appends consume a write-success oracle
`env : Nat -> Bool` (modelling possible disk or lock failures), page fetches
are an oracle `Url -> FetchOutcome`, and the rate limiter is a guarded step
relation over rational timestamps.
-/

set_option maxRecDepth 10000

namespace FedRag

/-- The closed set of document categories (`DocType` literal in the source). -/
inductive DocType where
  | statement
  | minutes
  | speech
  | testimony
deriving DecidableEq, Repr

/-- The string name of a category, as used in identifiers and file routing. -/
def DocType.str : DocType → String
  | .statement => "statement"
  | .minutes => "minutes"
  | .speech => "speech"
  | .testimony => "testimony"

/-- A calendar date (`datetime.date`): only the formatted rendering matters
for identifier derivation. -/
structure FedDate where
  year : Nat
  month : Nat
  day : Nat
deriving DecidableEq, Repr

/-- Left-pad the decimal rendering of a number with zeros to width `k`. -/
def padNum (k n : Nat) : String :=
  let s := toString n
  String.mk (List.replicate (k - s.length) '0') ++ s

/-- Model of `date.strftime("%Y%m%d")`: zero-padded year, month, day. -/
def FedDate.fmtYYYYMMDD (d : FedDate) : String :=
  padNum 4 d.year ++ padNum 2 d.month ++ padNum 2 d.day

/-! ## SHA-256 (`hashlib.sha256(content.encode()).hexdigest()`)

Implemented over `List Nat` bytes, all 32-bit words kept as naturals reduced
modulo `2^32`. -/

/-- Reduce a natural to a 32-bit word. -/
def w32 (n : Nat) : Nat := n % 4294967296

/-- Right-rotation of a 32-bit word by `k` bits. -/
def rotr32 (x k : Nat) : Nat := w32 ((x >>> k) ||| (x <<< (32 - k)))

/-- Bitwise complement of a 32-bit word. -/
def not32 (x : Nat) : Nat := x ^^^ 4294967295

/-- SHA-256 choice function. -/
def shaCh (x y z : Nat) : Nat := (x &&& y) ^^^ (not32 x &&& z)

/-- SHA-256 majority function. -/
def shaMaj (x y z : Nat) : Nat := (x &&& y) ^^^ (x &&& z) ^^^ (y &&& z)

/-- SHA-256 big sigma 0. -/
def bigSigma0 (x : Nat) : Nat := rotr32 x 2 ^^^ rotr32 x 13 ^^^ rotr32 x 22

/-- SHA-256 big sigma 1. -/
def bigSigma1 (x : Nat) : Nat := rotr32 x 6 ^^^ rotr32 x 11 ^^^ rotr32 x 25

/-- SHA-256 small sigma 0. -/
def smallSigma0 (x : Nat) : Nat := rotr32 x 7 ^^^ rotr32 x 18 ^^^ (x >>> 3)

/-- SHA-256 small sigma 1. -/
def smallSigma1 (x : Nat) : Nat := rotr32 x 17 ^^^ rotr32 x 19 ^^^ (x >>> 10)

/-- The 64 SHA-256 round constants. -/
def shaK : List Nat :=
  [1116352408, 1899447441, 3049323471, 3921009573,
   961987163, 1508970993, 2453635748, 2870763221,
   3624381080, 310598401, 607225278, 1426881987,
   1925078388, 2162078206, 2614888103, 3248222580,
   3835390401, 4022224774, 264347078, 604807628,
   770255983, 1249150122, 1555081692, 1996064986,
   2554220882, 2821834349, 2952996808, 3210313671,
   3336571891, 3584528711, 113926993, 338241895,
   666307205, 773529912, 1294757372, 1396182291,
   1695183700, 1986661051, 2177026350, 2456956037,
   2730485921, 2820302411, 3259730800, 3345764771,
   3516065817, 3600352804, 4094571909, 275423344,
   430227734, 506948616, 659060556, 883997877,
   958139571, 1322822218, 1537002063, 1747873779,
   1955562222, 2024104815, 2227730452, 2361852424,
   2428436474, 2756734187, 3204031479, 3329325298]

/-- Big-endian byte rendering of `n` on `k` bytes. -/
def toBytesBE (k n : Nat) : List Nat :=
  (List.range k).map (fun i => n / 2 ^ (8 * (k - 1 - i)) % 256)

/-- Big-endian word value of a byte list. -/
def bytesValBE (bs : List Nat) : Nat :=
  bs.foldl (fun acc b => acc * 256 + b) 0

/-- SHA-256 message padding: append `0x80`, zeros to 56 mod 64, then the
bit length on 8 big-endian bytes. -/
def sha256pad (msg : List Nat) : List Nat :=
  let z := (119 - msg.length % 64) % 64
  msg ++ [128] ++ List.replicate z 0 ++ toBytesBE 8 (8 * msg.length)

/-- Split a padded message into 64-byte blocks. -/
def chunks64 (l : List Nat) : List (List Nat) :=
  (List.range (l.length / 64)).map (fun i => ((l.drop (64 * i)).take 64))

/-- The eight working variables of the compression loop. -/
structure ShaWork where
  a : Nat
  b : Nat
  c : Nat
  d : Nat
  e : Nat
  f : Nat
  g : Nat
  h : Nat

/-- The eight-word hash state. -/
structure ShaState where
  h0 : Nat
  h1 : Nat
  h2 : Nat
  h3 : Nat
  h4 : Nat
  h5 : Nat
  h6 : Nat
  h7 : Nat

/-- SHA-256 initial hash value. -/
def shaInitState : ShaState :=
  ⟨1779033703, 3144134277, 1013904242, 2773480762,
   1359893119, 2600822924, 528734635, 1541459225⟩

/-- The 16 initial schedule words of a block. -/
def blockWords (block : List Nat) : List Nat :=
  (List.range 16).map (fun i => bytesValBE ((block.drop (4 * i)).take 4))

/-- Extend the 16 block words to the 64-entry message schedule. -/
def msgSchedule (ws : List Nat) : List Nat :=
  (List.range 48).foldl
    (fun w _ =>
      let n := w.length
      w ++ [w32 (smallSigma1 (w.getD (n - 2) 0) + w.getD (n - 7) 0 +
                 smallSigma0 (w.getD (n - 15) 0) + w.getD (n - 16) 0)])
    ws

/-- One compression round. -/
def shaRound (ws : List Nat) (v : ShaWork) (i : Nat) : ShaWork :=
  let t1 := w32 (v.h + bigSigma1 v.e + shaCh v.e v.f v.g +
                 shaK.getD i 0 + ws.getD i 0)
  let t2 := w32 (bigSigma0 v.a + shaMaj v.a v.b v.c)
  ⟨w32 (t1 + t2), v.a, v.b, v.c, w32 (v.d + t1), v.e, v.f, v.g⟩

/-- Compress one 64-byte block into the running state. -/
def compressBlock (st : ShaState) (block : List Nat) : ShaState :=
  let ws := msgSchedule (blockWords block)
  let v0 : ShaWork := ⟨st.h0, st.h1, st.h2, st.h3, st.h4, st.h5, st.h6, st.h7⟩
  let v := (List.range 64).foldl (shaRound ws) v0
  ⟨w32 (st.h0 + v.a), w32 (st.h1 + v.b), w32 (st.h2 + v.c), w32 (st.h3 + v.d),
   w32 (st.h4 + v.e), w32 (st.h5 + v.f), w32 (st.h6 + v.g), w32 (st.h7 + v.h)⟩

/-- The 32 digest bytes of the final state. -/
def stateBytes (st : ShaState) : List Nat :=
  toBytesBE 4 st.h0 ++ toBytesBE 4 st.h1 ++ toBytesBE 4 st.h2 ++
  toBytesBE 4 st.h3 ++ toBytesBE 4 st.h4 ++ toBytesBE 4 st.h5 ++
  toBytesBE 4 st.h6 ++ toBytesBE 4 st.h7

/-- SHA-256 digest (32 bytes) of a byte message. -/
def sha256Bytes (msg : List Nat) : List Nat :=
  stateBytes ((chunks64 (sha256pad msg)).foldl compressBlock shaInitState)

/-- The two lowercase hex characters of one byte (`hexdigest` rendering). -/
def byteHexChars (b : Nat) : List Char :=
  [Nat.digitChar (b / 16 % 16), Nat.digitChar (b % 16)]

/-- UTF-8 bytes of one character. -/
def utf8CharBytes (c : Char) : List Nat :=
  let n := c.toNat
  if n < 128 then [n]
  else if n < 2048 then [192 + n / 64, 128 + n % 64]
  else if n < 65536 then [224 + n / 4096, 128 + n / 64 % 64, 128 + n % 64]
  else [240 + n / 262144, 128 + n / 4096 % 64, 128 + n / 64 % 64, 128 + n % 64]

/-- UTF-8 bytes of a string (`str.encode()`). -/
def strBytes (s : String) : List Nat :=
  (s.data.map utf8CharBytes).flatten

/-- Hex character list of a string's SHA-256 digest. -/
def sha256HexChars (s : String) : List Char :=
  ((sha256Bytes (strBytes s)).map byteHexChars).flatten

/-- Model of `hashlib.sha256(s.encode()).hexdigest()`. -/
def sha256HexOfString (s : String) : String :=
  String.mk (sha256HexChars s)

/-! ## Document model (`models/document.py`) -/

/-- A Federal Reserve document (`FedDocument`). -/
structure FedDocument where
  doc_id : String
  url : String
  doc_type : DocType
  title : String
  speaker : Option String
  date : FedDate
  content : String
  raw_html : String
  has_pdf : Bool
  pdf_url : Option String
  scraped_at : String
  content_hash : String
deriving DecidableEq, Repr

/-- Model of `FedDocument.create`: a factory computing `content_hash`, `doc_id` and
`scraped_at`. The acquisition timestamp (`datetime.utcnow().isoformat()`)
enters as the explicit parameter `now`. `content_hash[:8]` is modelled by
taking the first eight hex characters before assembling the string. -/
def FedDocument.create (url : String) (doc_type : DocType) (title : String)
    (doc_date : FedDate) (content : String) (raw_html : String)
    (speaker : Option String) (has_pdf : Bool) (pdf_url : Option String)
    (now : String) : FedDocument :=
  let content_hash := sha256HexOfString content
  let doc_id := doc_type.str ++ "_" ++ doc_date.fmtYYYYMMDD ++ "_" ++
                String.mk ((sha256HexChars content).take 8)
  { doc_id := doc_id
    url := url
    doc_type := doc_type
    title := title
    speaker := speaker
    date := doc_date
    content := content
    raw_html := raw_html
    has_pdf := has_pdf
    pdf_url := pdf_url
    scraped_at := now ++ "Z"
    content_hash := content_hash }

/-! ## Document store (`storage/document_store.py`)

The store keeps, per category, an optional in-memory URL cache (`None` =
not yet loaded) and the JSONL file, modelled as the list of its records.
File appends consult a write-success oracle `env : Nat -> Bool`, indexed by a
running write-attempt counter; `env w = false` models the exception branch of
`save_document` (disk or lock failure). -/

/-- Add a URL to a set modelled as a duplicate-free list. -/
def insertUrl (s : List String) (u : String) : List String :=
  if u ∈ s then s else s ++ [u]

/-- Model of `_load_urls`: the set of URLs of all records in a category file. -/
def loadUrls (docs : List FedDocument) : List String :=
  docs.foldl (fun acc d => insertUrl acc d.url) []

/-- The document store state. -/
structure StoreState where
  cache : DocType → Option (List String)
  file : DocType → List FedDocument

/-- Model of `_ensure_url_cache`: load the URL cache for a category if needed, and
return its contents together with the (possibly updated) store. -/
def StoreState.ensureCache (st : StoreState) (t : DocType) :
    List String × StoreState :=
  match st.cache t with
  | some cs => (cs, st)
  | none =>
    let cs := loadUrls (st.file t)
    (cs, { st with cache := Function.update st.cache t (some cs) })

/-- Model of `get_existing_urls`: the cached URL set for a category (returned to the
caller as a copy; the aliasing aspect is modelled separately below). -/
def StoreState.getExistingUrls (st : StoreState) (t : DocType) :
    List String × StoreState :=
  st.ensureCache t

/-- Model of `save_document`: reject on a URL-cache hit before any write; otherwise
attempt the locked append (success decided by `env w`), and update the cache
only after a successful write. Exceptions of the write are caught and turned
into a `false` result. Returns (accepted, store, write counter). -/
def saveDocument (env : Nat → Bool) (st : StoreState) (w : Nat)
    (d : FedDocument) : Bool × StoreState × Nat :=
  let p := st.ensureCache d.doc_type
  let cs := p.1
  let st1 := p.2
  if d.url ∈ cs then
    (false, st1, w)
  else if env w then
    (true,
     { cache := Function.update st1.cache d.doc_type (some (insertUrl cs d.url))
       file := Function.update st1.file d.doc_type
                 (st1.file d.doc_type ++ [d]) },
     w + 1)
  else
    (false, st1, w + 1)

/-- Model of `count_documents`: size of the category's URL cache. -/
def StoreState.countDocuments (st : StoreState) (t : DocType) :
    Nat × StoreState :=
  let p := st.ensureCache t
  (p.1.length, p.2)

/-! ## Shared scraping loop and orchestrator
(`scrapers/base.py`, `scrapers/orchestrator.py`)

`scrape_document` is an oracle per URL: it returns a document, returns `None`
(skip), or raises (the loop catches and continues). The orchestrator consumes
each yielded document as it is produced: it calls `save_document`, ignores the
returned boolean, and increments its counter unconditionally. The fields
`savedCount` and `rejectedCount` are instrumentation recording how many saves
the store accepted and rejected. -/

/-- Outcome of `scrape_document(url)` for one URL. -/
inductive FetchOutcome where
  | ok (d : FedDocument)
  | skipped
  | errored
deriving DecidableEq, Repr

/-- State threaded through one category run: the adapter's in-memory
exclusion set, the store, the write counter, the orchestrator's count, and
the instrumentation counters. -/
structure RunState where
  excl : List String
  store : StoreState
  wctr : Nat
  count : Nat
  savedCount : Nat
  rejectedCount : Nat

/-- One iteration of the shared driving loop fused with the orchestrator's
consumer: skip excluded URLs; on a yielded document add the URL to the
exclusion set, save, and count; on `None` or an exception, continue. -/
def scrapeStep (fetch : String → FetchOutcome) (env : Nat → Bool)
    (st : RunState) (url : String) : RunState :=
  if url ∈ st.excl then st
  else
    match fetch url with
    | .skipped => st
    | .errored => st
    | .ok d =>
      let st1 : RunState := { st with excl := insertUrl st.excl url }
      let r := saveDocument env st1.store st1.wctr d
      { st1 with
        store := r.2.1
        wctr := r.2.2
        count := st1.count + 1
        savedCount := st1.savedCount + (if r.1 then 1 else 0)
        rejectedCount := st1.rejectedCount + (if r.1 then 0 else 1) }

/-- Model of `scrape_type`: load the exclusion set from the store, then drive the
adapter over its enumerated URLs. -/
def scrapeType (fetch : String → FetchOutcome) (env : Nat → Bool)
    (t : DocType) (urls : List String) (st0 : StoreState) (w0 : Nat) :
    RunState :=
  let p := st0.getExistingUrls t
  urls.foldl (scrapeStep fetch env)
    { excl := p.1, store := p.2, wctr := w0,
      count := 0, savedCount := 0, rejectedCount := 0 }

/-- The loop body of `scrape_all`: run one category and record its count. -/
def scrapeAllStep (fetch : DocType → String → FetchOutcome) (env : Nat → Bool)
    (enum : DocType → List String)
    (acc : List (DocType × Nat) × StoreState × Nat) (t : DocType) :
    List (DocType × Nat) × StoreState × Nat :=
  let r := scrapeType (fetch t) env t (enum t) acc.2.1 acc.2.2
  (acc.1 ++ [(t, r.count)], r.store, r.wctr)

/-- Model of `scrape_all`: run the categories sequentially, collecting per-category
counts and threading the store. -/
def scrapeAll (fetch : DocType → String → FetchOutcome) (env : Nat → Bool)
    (enum : DocType → List String) (types : List DocType)
    (st0 : StoreState) (w0 : Nat) :
    List (DocType × Nat) × StoreState × Nat :=
  types.foldl (scrapeAllStep fetch env enum) ([], st0, w0)

/-! ## Retry combinator (`utils/retry.py`)

Failures are classified exactly as the wrapper's except clauses do:
`RateLimitError` first (it is a `RetryableError`, but matched before the
generic clause), then `aiohttp.ClientResponseError` (raised immediately on a
4xx status, retried with backoff otherwise), then the remaining retryable
classes (`aiohttp.ClientError`, `asyncio.TimeoutError`, `RetryableError`).
Any other exception escapes the wrapper at once. The wrapped operation is an
oracle from the attempt index to its outcome; the jitter draw
`random.random()` is an oracle from the attempt index to a rational. The
wrapper returns the final outcome, the number of attempts made, and the list
of slept delays. -/

/-- Classified failure of a wrapped operation. -/
inductive FetchErr where
  | rateLimited (retryAfter : ℚ)
  | clientResponse (status : Nat)
  | transient
  | unhandled
  | retryLogic
deriving DecidableEq, Repr

/-- Backoff delay for an attempt: `min(base_delay * 2^attempt, max_delay)`,
multiplied by `0.5 + random.random()` when jitter is on. -/
def backoffDelay (base maxDelay : ℚ) (useJitter : Bool) (rand : Nat → ℚ)
    (attempt : Nat) : ℚ :=
  let d := min (base * 2 ^ attempt) maxDelay
  if useJitter then d * (1 / 2 + rand attempt) else d

/-- The retry loop body: `remaining` counts loop iterations left
(`max_retries + 1` at the start), `attempt` is the current index, `last` the
last observed retryable error. -/
def retryGo {α : Type} (maxRetries : Nat) (base maxDelay : ℚ)
    (useJitter : Bool) (rand : Nat → ℚ) (op : Nat → Except FetchErr α)
    (last : Option FetchErr) :
    Nat → Nat → Except FetchErr α × Nat × List ℚ
  | _, 0 => (.error (last.getD .retryLogic), 0, [])
  | attempt, remaining + 1 =>
    match op attempt with
    | .ok v => (.ok v, 1, [])
    | .error e =>
      match e with
      | .rateLimited ra =>
        if attempt = maxRetries then (.error e, 1, [])
        else
          let p := retryGo maxRetries base maxDelay useJitter rand op
                     (some e) (attempt + 1) remaining
          (p.1, p.2.1 + 1, ra :: p.2.2)
      | .clientResponse s =>
        if 400 ≤ s ∧ s < 500 then (.error e, 1, [])
        else if attempt = maxRetries then (.error e, 1, [])
        else
          let d := backoffDelay base maxDelay useJitter rand attempt
          let p := retryGo maxRetries base maxDelay useJitter rand op
                     (some e) (attempt + 1) remaining
          (p.1, p.2.1 + 1, d :: p.2.2)
      | .transient =>
        if attempt = maxRetries then (.error e, 1, [])
        else
          let d := backoffDelay base maxDelay useJitter rand attempt
          let p := retryGo maxRetries base maxDelay useJitter rand op
                     (some e) (attempt + 1) remaining
          (p.1, p.2.1 + 1, d :: p.2.2)
      | .unhandled => (.error e, 1, [])
      | .retryLogic => (.error e, 1, [])

/-- Model of `retry_with_backoff(max_retries, base_delay, max_delay, jitter)` applied
to an operation: run up to `max_retries + 1` loop iterations. -/
def retryWithBackoff {α : Type} (maxRetries : Nat) (base maxDelay : ℚ)
    (useJitter : Bool) (rand : Nat → ℚ) (op : Nat → Except FetchErr α) :
    Except FetchErr α × Nat × List ℚ :=
  retryGo maxRetries base maxDelay useJitter rand op none 0 (maxRetries + 1)

/-- An error class the wrapper retries (when attempts remain): the explicit
rate-limit signal, a non-4xx response error, or a transient transport error. -/
def RetryableClass : FetchErr → Prop
  | .rateLimited _ => True
  | .clientResponse s => ¬(400 ≤ s ∧ s < 500)
  | .transient => True
  | .unhandled => False
  | .retryLogic => False

instance : DecidablePred RetryableClass := by
  intro e
  cases e <;> simp only [RetryableClass] <;> infer_instance

/-! ## Rate limiter (`utils/rate_limiter.py`)

`acquire()` waits on the semaphore, then under the interval lock reads the
monotonic clock, sleeps out the remainder of `min_interval = 1/rate`, and
records a fresh monotonic reading as the new last start. The lock serializes
these critical sections, so a run is a sequence of events; each `acq` event
carries the two monotonic readings (`now` on entry, `fin` recorded as the new
last start). Validity of an event encodes both the semaphore semantics (a
slot is granted only below the bound) and the environment guarantees that the
monotonic clock never decreases and that `asyncio.sleep(w)` suspends for at
least `w`. -/

/-- Rate limiter state: in-flight operations, the recorded last start
(`_last_request_time`, initially 0.0), and the monotonic clock floor. -/
structure RLState where
  inFlight : Nat
  lastStart : ℚ
  clock : ℚ
deriving DecidableEq, Repr

/-- Initial rate limiter state. -/
def rlInit : RLState := ⟨0, 0, 0⟩

/-- An event of a rate limiter run: a granted `acquire` with its two
monotonic readings, or a `release`. -/
inductive RLEvent where
  | acq (now fin : ℚ)
  | rel
deriving DecidableEq, Repr

/-- Guarded step of the rate limiter: `none` when the event is not possible
for this state (semaphore full, clock running backwards, or a sleep shorter
than requested). -/
def rlStep (maxConc : Nat) (minInterval : ℚ) (st : RLState) :
    RLEvent → Option RLState
  | .acq now fin =>
    if st.inFlight < maxConc ∧ st.clock ≤ now ∧ now ≤ fin ∧
       (now - st.lastStart < minInterval →
         st.lastStart + minInterval ≤ fin)
    then some ⟨st.inFlight + 1, fin, fin⟩
    else none
  | .rel =>
    if 0 < st.inFlight then some ⟨st.inFlight - 1, st.lastStart, st.clock⟩
    else none

/-- Run a rate limiter trace from a state. -/
def rlRunFrom (maxConc : Nat) (minInterval : ℚ) (st : RLState) :
    List RLEvent → Option RLState
  | [] => some st
  | e :: rest =>
    match rlStep maxConc minInterval st e with
    | none => none
    | some st2 => rlRunFrom maxConc minInterval st2 rest

/-- Run a rate limiter trace from the initial state, with
`minInterval = 1/rate` as in the constructor. -/
def rlRun (maxConc : Nat) (rate : ℚ) (evts : List RLEvent) : Option RLState :=
  rlRunFrom maxConc (1 / rate) rlInit evts

/-- The recorded start times of the granted acquisitions of a trace, in
order. -/
def startsOf (evts : List RLEvent) : List ℚ :=
  evts.filterMap (fun e => match e with
    | .acq _ fin => some fin
    | .rel => none)

/-! ## Reference-level view of the URL cache (`get_existing_urls`)

`get_existing_urls` returns `self._ensure_url_cache(doc_type).copy()`. To
state what the `.copy()` buys, sets are modelled as cells of a small memory;
the store's cache lives in one cell and `get_existing_urls` allocates a fresh
cell holding a copy, which is what the adapter then mutates. -/

/-- A memory of URL-set cells. -/
abbrev UrlMem := List (List String)

/-- Read a cell. -/
def memGet (m : UrlMem) (r : Nat) : List String :=
  List.getD m r []

/-- Overwrite a cell. -/
def memSet (m : UrlMem) (r : Nat) (v : List String) : UrlMem :=
  List.set m r v

/-- Allocate a fresh cell. -/
def memAlloc (m : UrlMem) (v : List String) : UrlMem × Nat :=
  (m ++ [v], m.length)

/-- Model of `get_existing_urls` at the memory level: allocate a copy of the store's
cached set and hand the fresh cell to the caller. -/
def getExistingUrlsRef (m : UrlMem) (storeRef : Nat) : UrlMem × Nat :=
  memAlloc m (memGet m storeRef)

/-- Model of `set.add` on a cell (the adapter growing its exclusion set). -/
def addUrlRef (m : UrlMem) (r : Nat) (u : String) : UrlMem :=
  memSet m r (insertUrl (memGet m r) u)

/-- The dedup gate of `save_document`, reading the store's own cache cell. -/
def dupGateRef (m : UrlMem) (storeRef : Nat) (u : String) : Bool :=
  decide (u ∈ memGet m storeRef)

/-- Model of `count_documents`, reading the store's own cache cell. -/
def countDocumentsRef (m : UrlMem) (storeRef : Nat) : Nat :=
  (memGet m storeRef).length

/-! ## Concrete fixtures used by counterexamples and witnesses -/

/-- A concrete document with a given URL and category. -/
def mkDoc (u : String) (t : DocType) : FedDocument :=
  { doc_id := "id", url := u, doc_type := t, title := "T", speaker := none,
    date := ⟨2023, 11, 1⟩, content := "c", raw_html := "h", has_pdf := false,
    pdf_url := none, scraped_at := "s", content_hash := "x" }

/-- A store whose statement category has the given cache and file, all other
categories empty and unloaded. -/
def mkStore (cs : List String) (docs : List FedDocument) : StoreState :=
  { cache := fun t => match t with
      | .statement => some cs
      | _ => none
    file := fun t => match t with
      | .statement => docs
      | _ => [] }

/-- A write oracle on which every append succeeds. -/
def envTrue : Nat → Bool := fun _ => true

/-- A write oracle on which every append fails (disk or lock failure). -/
def envFalse : Nat → Bool := fun _ => false

/-- A run in which the adapter yields one document whose recorded URL is
already cached (as after a redirect), so the store rejects the save. -/
def runC1 : RunState :=
  scrapeType (fun _ => .ok (mkDoc "https://a/b" .statement)) envTrue
    .statement ["https://a/a"] (mkStore ["https://a/b"] []) 0

/-- A run of one URL whose document save fails with a storage error. -/
def runC2 : RunState :=
  scrapeType (fun _ => .ok (mkDoc "https://a/a" .statement)) envFalse
    .statement ["https://a/a"] (mkStore [] []) 0

/-- The fetch oracle of the C2 witness. -/
def fetchW2 : String → FetchOutcome :=
  fun _ => .ok (mkDoc "https://a/a" .statement)

/-- The run state of the C2 witness. -/
def rsW2 : RunState :=
  { excl := [], store := mkStore [] [], wctr := 0, count := 0,
    savedCount := 0, rejectedCount := 0 }

/-- An operation that always answers 404. -/
def opNotFound : Nat → Except FetchErr Nat :=
  fun _ => .error (.clientResponse 404)

/-- An operation that always fails with a transient transport error. -/
def opTransient : Nat → Except FetchErr Nat :=
  fun _ => .error .transient

/-- An operation that fails with the rate-limit signal on even attempts and
a 503 response on odd attempts. -/
def opMixed : Nat → Except FetchErr Nat :=
  fun i => if i % 2 = 0 then .error (.rateLimited 10) else
    .error (.clientResponse 503)

/-- The C9 scenario store: the statement category already holds `U1`. -/
def storeC9 : StoreState :=
  mkStore ["https://a/u1"] [mkDoc "https://a/u1" .statement]

/-- The C9 scenario fetch oracle: `U2` raises (a 404 surfaced through the
retry wrapper), any other URL parses into the stored document. -/
def fetchC9 : String → FetchOutcome := fun u =>
  if u = "https://a/u2" then .errored
  else .ok (mkDoc "https://a/u1" .statement)

/-- The C9 scenario run over the enumeration `[U1, U2]`. -/
def runC9 : RunState :=
  scrapeType fetchC9 envTrue .statement ["https://a/u1", "https://a/u2"]
    storeC9 0

/-- The run state of the C9 witness. -/
def rsW9 : RunState :=
  { excl := ["https://a/u1"], store := storeC9, wctr := 0, count := 0,
    savedCount := 0, rejectedCount := 0 }

/-- A valid trace for three concurrent slots at rate 2: two acquisitions
back to back (the second admitted by the gate immediately but throttled to
start 0.5 s later), a release, and a third acquisition. -/
def evtsW7 : List RLEvent :=
  [.acq 0 (1 / 2), .acq (1 / 2) 1, .rel, .acq 1 (3 / 2)]

/-- The contents of a category's URL cache as the store reads them: the
loaded cache, or what loading the category file would produce. -/
def cacheContents (st : StoreState) (t : DocType) : List String :=
  (st.cache t).getD (loadUrls (st.file t))

/-- Redirect-scenario fetch oracle: the enumerated statement URL parses into
a document recording the post-redirect URL (`final_url` in the source). -/
def fetchS1 : DocType → String → FetchOutcome := fun t u =>
  if t = DocType.statement ∧ u = "https://a/u" then
    .ok (mkDoc "https://a/v" .statement)
  else .skipped

/-- Plain fetch oracle: the enumerated statement URL parses into a document
recording the URL it was fetched under. -/
def fetchS2 : DocType → String → FetchOutcome := fun t u =>
  if t = DocType.statement ∧ u = "https://a/u" then
    .ok (mkDoc "https://a/u" .statement)
  else .skipped

/-- The one-URL statement universe of the idempotence scenarios. -/
def enumS : DocType → List String := fun t =>
  if t = DocType.statement then ["https://a/u"] else []

/-- First full run of the redirect scenario. -/
def run1S1 : List (DocType × Nat) × StoreState × Nat :=
  scrapeAll fetchS1 envTrue enumS [DocType.statement] (mkStore [] []) 0

/-- Second full run of the redirect scenario, over the store the first run
left behind. -/
def run2S1 : List (DocType × Nat) × StoreState × Nat :=
  scrapeAll fetchS1 envTrue enumS [DocType.statement] run1S1.2.1 run1S1.2.2

/-- First full run of the write-failure scenario (every append fails). -/
def run1S2 : List (DocType × Nat) × StoreState × Nat :=
  scrapeAll fetchS2 envFalse enumS [DocType.statement] (mkStore [] []) 0

/-- Second full run of the write-failure scenario. -/
def run2S2 : List (DocType × Nat) × StoreState × Nat :=
  scrapeAll fetchS2 envFalse enumS [DocType.statement] run1S2.2.1 run1S2.2.2

/-- The all-a content of length `n`: an infinite family of pairwise distinct
contents, used to exhibit identifier collisions by counting. -/
def aStr (n : Nat) : String := String.mk (List.replicate n 'a')

/-- The numeric value of the first four digest bytes of a content's hash —
exactly the information the identifier keeps (eight hex characters). -/
def digestWord (c : String) : Nat :=
  bytesValBE ((sha256Bytes (strBytes c)).take 4)


/-! ## C1: does the category count equal the number of accepted saves? -/

/-- One driving-loop step preserves the relation between the orchestrator's
count and the save instrumentation. -/
theorem scrapeStep_count_split (fetch : String → FetchOutcome)
    (env : Nat → Bool) (st : RunState) (url : String)
    (h : st.count = st.savedCount + st.rejectedCount) :
    (scrapeStep fetch env st url).count =
      (scrapeStep fetch env st url).savedCount +
      (scrapeStep fetch env st url).rejectedCount := by
  by_cases hx : url ∈ st.excl
  · simpa [scrapeStep, hx] using h
  · cases hf : fetch url with
    | ok d =>
      rcases hsv : saveDocument env st.store st.wctr d with ⟨b, st', w'⟩
      cases b <;> simp [scrapeStep, hx, hf, hsv] <;> omega
    | skipped => simpa [scrapeStep, hx, hf] using h
    | errored => simpa [scrapeStep, hx, hf] using h

/-- The driving loop preserves the relation between the orchestrator's count
and the save instrumentation. -/
theorem scrapeFold_count_split (fetch : String → FetchOutcome)
    (env : Nat → Bool) :
    ∀ (urls : List String) (st : RunState),
      st.count = st.savedCount + st.rejectedCount →
      (urls.foldl (scrapeStep fetch env) st).count =
        (urls.foldl (scrapeStep fetch env) st).savedCount +
        (urls.foldl (scrapeStep fetch env) st).rejectedCount
  | [], _st, h => h
  | u :: us, st, h =>
    scrapeFold_count_split fetch env us (scrapeStep fetch env st u)
      (scrapeStep_count_split fetch env st u h)

/-- C1 (amended): the count returned by a category run equals the number of
documents the adapter yielded, i.e. the number of accepted saves plus the
number of rejected or failed saves — the orchestrator increments its counter
for every yielded document without inspecting the result of
`save_document`. -/
theorem C1_main (fetch : String → FetchOutcome) (env : Nat → Bool)
    (t : DocType) (urls : List String) (st0 : StoreState) (w0 : Nat) :
    (scrapeType fetch env t urls st0 w0).count =
      (scrapeType fetch env t urls st0 w0).savedCount +
      (scrapeType fetch env t urls st0 w0).rejectedCount := by
  unfold scrapeType
  exact scrapeFold_count_split fetch env urls _ rfl

/-- C1 counterexample: the orchestrator reports count 1 for a run in which
the store accepted zero documents — a rejected save still increments the
returned count, contradicting the claim that the count equals the number of
documents the store accepted. -/
theorem C1_counterexample : runC1.count = 1 ∧ runC1.savedCount = 0 := by
  decide

/-! ## C2: storage errors and the per-category count -/

/-- C2 counterexample: when the only save of a run fails with a storage
error, the store accepts nothing and the file is untouched, yet the
orchestrator still reports count 1 — the claim says the count is not
incremented for a document that failed to save. -/
theorem C2_counterexample :
    runC2.count = 1 ∧ runC2.savedCount = 0 ∧
    runC2.store.file DocType.statement = [] := by
  decide

/-- C2 (amended): a storage error during an append is caught inside
`save_document` itself, which logs and returns `false` — it does not
propagate to the orchestrator. The store (cache and file) is left unchanged
and the run continues, but the orchestrator, which never inspects the
returned boolean, still increments its per-category count. -/
theorem C2_main (env : Nat → Bool) (fetch : String → FetchOutcome)
    (rs : RunState) (url : String) (d : FedDocument) (cs : List String)
    (hf : fetch url = FetchOutcome.ok d) (hx : url ∉ rs.excl)
    (hc : rs.store.cache d.doc_type = some cs) (hm : d.url ∉ cs)
    (he : env rs.wctr = false) :
    saveDocument env rs.store rs.wctr d = (false, rs.store, rs.wctr + 1)
    ∧ scrapeStep fetch env rs url =
        { rs with excl := insertUrl rs.excl url, wctr := rs.wctr + 1,
                  count := rs.count + 1,
                  rejectedCount := rs.rejectedCount + 1 } := by
  have hsave : saveDocument env rs.store rs.wctr d =
      (false, rs.store, rs.wctr + 1) := by
    unfold saveDocument StoreState.ensureCache
    simp [hc, hm, he]
  refine ⟨hsave, ?_⟩
  unfold scrapeStep
  simp [hx, hf, hsave]

/-- C2 witness: the amended statement evaluated on a concrete failing
append. -/
theorem C2_witness :
    (fetchW2 "https://a/a" = FetchOutcome.ok (mkDoc "https://a/a" .statement)
     ∧ "https://a/a" ∉ rsW2.excl
     ∧ rsW2.store.cache (mkDoc "https://a/a" .statement).doc_type = some []
     ∧ (mkDoc "https://a/a" .statement).url ∉ ([] : List String)
     ∧ envFalse rsW2.wctr = false)
    ∧ saveDocument envFalse rsW2.store rsW2.wctr
        (mkDoc "https://a/a" .statement) = (false, rsW2.store, rsW2.wctr + 1)
    ∧ scrapeStep fetchW2 envFalse rsW2 "https://a/a" =
        { rsW2 with excl := insertUrl rsW2.excl "https://a/a",
                    wctr := rsW2.wctr + 1, count := rsW2.count + 1,
                    rejectedCount := rsW2.rejectedCount + 1 } :=
  ⟨⟨by decide, by decide, by decide, by decide, rfl⟩,
   C2_main envFalse fetchW2 rsW2 "https://a/a" _ []
     (by decide) (by decide) (by decide) (by decide) rfl⟩

/-! ## C4: the dedup gate and the cache-after-write discipline -/

/-- C4: with the category cache loaded, `save_document` rejects a duplicate
URL with no write at all (no write attempt is consumed, file and cache are
untouched); on a new URL it attempts the append, and the URL is added to the
cache exactly when the append succeeded — a failed append leaves the cache
and file unchanged. -/
theorem C4_main (env : Nat → Bool) (st : StoreState) (w : Nat)
    (d : FedDocument) (cs : List String) (hc : st.cache d.doc_type = some cs) :
    (d.url ∈ cs → saveDocument env st w d = (false, st, w))
    ∧ (d.url ∉ cs → env w = true →
        saveDocument env st w d =
          (true,
           { cache := Function.update st.cache d.doc_type
                        (some (cs ++ [d.url]))
             file := Function.update st.file d.doc_type
                       (st.file d.doc_type ++ [d]) },
           w + 1))
    ∧ (d.url ∉ cs → env w = false →
        saveDocument env st w d = (false, st, w + 1)) := by
  refine ⟨fun hm => ?_, fun hm he => ?_, fun hm he => ?_⟩
  · unfold saveDocument StoreState.ensureCache
    simp [hc, hm]
  · unfold saveDocument StoreState.ensureCache
    simp [hc, hm, he, insertUrl]
  · unfold saveDocument StoreState.ensureCache
    simp [hc, hm, he]

/-- C4 witness: the gate evaluated on a concrete store whose statement cache
holds one URL. -/
theorem C4_witness :
    ((mkStore ["https://a/u1"] []).cache
        (mkDoc "https://a/u1" .statement).doc_type = some ["https://a/u1"])
    ∧ ((mkDoc "https://a/u1" .statement).url ∈ ["https://a/u1"] →
        saveDocument envTrue (mkStore ["https://a/u1"] []) 0
          (mkDoc "https://a/u1" .statement) =
          (false, mkStore ["https://a/u1"] [], 0)) :=
  ⟨by decide,
   (C4_main envTrue (mkStore ["https://a/u1"] []) 0
     (mkDoc "https://a/u1" .statement) ["https://a/u1"] (by decide)).1⟩

/-! ## C5: 4xx client errors are surfaced immediately -/

/-- C5: an operation whose first attempt fails with a `ClientResponseError`
carrying a 4xx status (404, 403, ...; the rate-limit signal is a separate
exception class) is raised to the caller at once: exactly one attempt is
made and nothing is slept, whatever the remaining attempt budget, backoff
tuning or jitter. -/
theorem C5_main {α : Type} (maxRetries : Nat) (base maxDelay : ℚ)
    (useJitter : Bool) (rand : Nat → ℚ) (op : Nat → Except FetchErr α)
    (s : Nat) (h4 : 400 ≤ s) (h5 : s < 500)
    (h0 : op 0 = .error (.clientResponse s)) :
    retryWithBackoff maxRetries base maxDelay useJitter rand op =
      (.error (.clientResponse s), 1, []) := by
  unfold retryWithBackoff retryGo
  simp [h0, h4, h5]

/-- C5 witness: a simulated 404 under the default tuning
(`max_retries = 5`, `base = 5`, `max = 300`, jitter on). -/
theorem C5_witness :
    (400 ≤ 404 ∧ 404 < 500 ∧ opNotFound 0 = .error (.clientResponse 404))
    ∧ retryWithBackoff 5 5 300 true (fun _ => 0) opNotFound =
        (.error (.clientResponse 404), 1, []) :=
  ⟨⟨by decide, by decide, rfl⟩,
   C5_main 5 5 300 true (fun _ => 0) opNotFound 404
     (by decide) (by decide) rfl⟩

/-! ## C6: the attempt budget on retryable failures -/

/-- C6 counterexample: under the default tuning (`max_retries = 5`) an
operation that fails retryably on every attempt is attempted 6 times, not at
most 5 — the loop runs `max_retries + 1` iterations, one initial attempt
plus `max_retries` retries. The last observed error is still raised. -/
theorem C6_counterexample :
    (retryWithBackoff 5 5 300 true (fun _ => 0) opTransient).2.1 = 6
    ∧ (retryWithBackoff 5 5 300 true (fun _ => 0) opTransient).1 =
        .error .transient := by
  constructor
  · decide
  · rfl

/-- The attempt counter of the retry loop never exceeds the remaining
iteration budget. -/
theorem retryGo_attempts_le {α : Type} (maxRetries : Nat) (base maxDelay : ℚ)
    (useJitter : Bool) (rand : Nat → ℚ) (op : Nat → Except FetchErr α) :
    ∀ (remaining attempt : Nat) (last : Option FetchErr),
      (retryGo maxRetries base maxDelay useJitter rand op last attempt
        remaining).2.1 ≤ remaining
  | 0, _, _ => by simp [retryGo]
  | remaining + 1, attempt, last => by
    have ih := fun a l => retryGo_attempts_le maxRetries base maxDelay
      useJitter rand op remaining a l
    unfold retryGo
    cases hop : op attempt with
    | ok v => simp
    | error e =>
      cases e with
      | rateLimited ra =>
        by_cases h : attempt = maxRetries
        · simp [h]
        · have := ih (attempt + 1) (some (FetchErr.rateLimited ra))
          simp [h]
          omega
      | clientResponse s =>
        by_cases h45 : 400 ≤ s ∧ s < 500
        · simp [h45]
        · by_cases h : attempt = maxRetries
          · simp [h45, h]
          · have := ih (attempt + 1) (some (FetchErr.clientResponse s))
            simp [h45, h]
            omega
      | transient =>
        by_cases h : attempt = maxRetries
        · simp [h]
        · have := ih (attempt + 1) (some FetchErr.transient)
          simp [h]
          omega
      | unhandled => simp
      | retryLogic => simp

/-- When every attempt up to the budget fails retryably, the loop runs to
exhaustion and raises the error observed on the final attempt. -/
theorem retryGo_exhaustion {α : Type} (maxRetries : Nat) (base maxDelay : ℚ)
    (useJitter : Bool) (rand : Nat → ℚ) (op : Nat → Except FetchErr α)
    (eLast : FetchErr) :
    ∀ (r attempt : Nat) (last : Option FetchErr),
      attempt + r = maxRetries →
      (∀ i, i ≤ maxRetries → ∃ e, op i = .error e ∧ RetryableClass e) →
      op maxRetries = .error eLast →
      (retryGo maxRetries base maxDelay useJitter rand op last attempt
          (r + 1)).1 = .error eLast
      ∧ (retryGo maxRetries base maxDelay useJitter rand op last attempt
          (r + 1)).2.1 = r + 1
  | 0, attempt, last, hsum, hall, hlast => by
    have ha : attempt = maxRetries := by omega
    subst ha
    unfold retryGo
    rcases hall attempt le_rfl with ⟨e, he, hr⟩
    rw [hlast] at he
    cases he
    rw [hlast]
    cases eLast with
    | rateLimited ra => simp
    | clientResponse s =>
      have : ¬(400 ≤ s ∧ s < 500) := hr
      simp [this]
    | transient => simp
    | unhandled => exact absurd hr (by simp [RetryableClass])
    | retryLogic => exact absurd hr (by simp [RetryableClass])
  | r + 1, attempt, last, hsum, hall, hlast => by
    have hlt : attempt < maxRetries := by omega
    have hne : ¬(attempt = maxRetries) := by omega
    rcases hall attempt (by omega) with ⟨e, he, hr⟩
    have ih := retryGo_exhaustion maxRetries base maxDelay useJitter rand op
      eLast r (attempt + 1) (some e) (by omega) hall hlast
    unfold retryGo
    rw [he]
    cases e with
    | rateLimited ra => simp [hne]; exact ⟨ih.1, by have := ih.2; omega⟩
    | clientResponse s =>
      have h45 : ¬(400 ≤ s ∧ s < 500) := hr
      simp [h45, hne]
      exact ⟨ih.1, by have := ih.2; omega⟩
    | transient =>
      simp [hne]
      exact ⟨ih.1, by have := ih.2; omega⟩
    | unhandled => exact absurd hr (by simp [RetryableClass])
    | retryLogic => exact absurd hr (by simp [RetryableClass])

/-- C6 (amended): the wrapper makes at most `max_retries + 1` total attempts
(one initial attempt plus up to `max_retries` retries; 6 with the default
`max_retries = 5`), and when every attempt fails with a retryable error it
runs to exactly `max_retries + 1` attempts and raises the last observed
error — the failure is never silently swallowed. -/
theorem C6_main {α : Type} (maxRetries : Nat) (base maxDelay : ℚ)
    (useJitter : Bool) (rand : Nat → ℚ) :
    (∀ op : Nat → Except FetchErr α,
      (retryWithBackoff maxRetries base maxDelay useJitter rand op).2.1 ≤
        maxRetries + 1)
    ∧ (∀ (op : Nat → Except FetchErr α) (eLast : FetchErr),
        (∀ i, i ≤ maxRetries → ∃ e, op i = .error e ∧ RetryableClass e) →
        op maxRetries = .error eLast →
        (retryWithBackoff maxRetries base maxDelay useJitter rand op).1 =
          .error eLast
        ∧ (retryWithBackoff maxRetries base maxDelay useJitter rand
            op).2.1 = maxRetries + 1) := by
  constructor
  · intro op
    exact retryGo_attempts_le maxRetries base maxDelay useJitter rand op
      (maxRetries + 1) 0 none
  · intro op eLast hall hlast
    exact retryGo_exhaustion maxRetries base maxDelay useJitter rand op
      eLast maxRetries 0 none (by omega) hall hlast

/-- C6 witness: the amended bound and exhaustion behavior on a concrete
always-failing operation with `max_retries = 2`. -/
theorem C6_witness :
    ((∀ i, i ≤ 2 → ∃ e, opMixed i = .error e ∧ RetryableClass e)
      ∧ opMixed 2 = .error (.rateLimited 10))
    ∧ (retryWithBackoff 2 5 300 false (fun _ => 0) opMixed).2.1 ≤ 3
    ∧ (retryWithBackoff 2 5 300 false (fun _ => 0) opMixed).1 =
        .error (.rateLimited 10)
    ∧ (retryWithBackoff 2 5 300 false (fun _ => 0) opMixed).2.1 = 3 :=
  have h1 : ∀ i, i ≤ 2 → ∃ e, opMixed i = .error e ∧ RetryableClass e := by
    intro i hi
    interval_cases i
    · exact ⟨.rateLimited 10, rfl, trivial⟩
    · exact ⟨.clientResponse 503, rfl, by simp [RetryableClass]⟩
    · exact ⟨.rateLimited 10, rfl, trivial⟩
  ⟨⟨h1, rfl⟩,
   (C6_main 2 5 300 false (fun _ => 0)).1 opMixed,
   ((C6_main 2 5 300 false (fun _ => 0)).2 opMixed (.rateLimited 10)
     h1 rfl).1,
   ((C6_main 2 5 300 false (fun _ => 0)).2 opMixed (.rateLimited 10)
     h1 rfl).2⟩

/-! ## C9: per-URL failure isolation -/

/-- C9: a URL whose fetch-and-parse raises is skipped without yielding a
document and without touching any state, and the loop goes on — and in the
concrete scenario (store holding `U1`, enumeration `[U1, U2]`, `U2`
raising), the category run completes with count 0 and an unchanged store. -/
theorem C9_main :
    (∀ (fetch : String → FetchOutcome) (env : Nat → Bool) (rs : RunState)
       (url : String),
        fetch url = FetchOutcome.errored → scrapeStep fetch env rs url = rs)
    ∧ runC9.count = 0 ∧ runC9.savedCount = 0
    ∧ runC9.store.cache DocType.statement = some ["https://a/u1"]
    ∧ runC9.store.file DocType.statement = [mkDoc "https://a/u1" .statement]
    ∧ runC9.excl = ["https://a/u1"] := by
  refine ⟨?_, by decide, by decide, by decide, by decide, by decide⟩
  intro fetch env rs url h
  unfold scrapeStep
  split
  · rfl
  · simp [h]

/-- C9 witness: the isolation statement applied to the concrete raising
URL. -/
theorem C9_witness :
    fetchC9 "https://a/u2" = FetchOutcome.errored
    ∧ scrapeStep fetchC9 envTrue rsW9 "https://a/u2" = rsW9 :=
  ⟨by decide, C9_main.1 fetchC9 envTrue rsW9 "https://a/u2" (by decide)⟩

/-! ## C10: `get_existing_urls` hands out a snapshot copy -/

/-- Adding URLs to one cell leaves every other cell unchanged. -/
theorem memGet_addFold_ne (r : Nat) :
    ∀ (adds : List String) (m : UrlMem) (r' : Nat), r ≠ r' →
      memGet (adds.foldl (fun mm u => addUrlRef mm r u) m) r' = memGet m r'
  | [], _, _, _ => rfl
  | u :: us, m, r', h => by
    rw [List.foldl_cons, memGet_addFold_ne r us _ r' h]
    unfold addUrlRef memSet memGet
    simp [List.getD_eq_getElem?_getD, List.getElem?_set_ne h]

/-- Reading below the length is unaffected by an allocation at the end. -/
theorem memGet_alloc_lt (m : UrlMem) (v : List String) (r : Nat)
    (h : r < m.length) : memGet (m ++ [v]) r = memGet m r := by
  unfold memGet
  simp [List.getD_eq_getElem?_getD, List.getElem?_append_left h]

/-- C10: the URL set returned by `get_existing_urls` is a snapshot copy —
however the caller mutates it (as the adapter does when it adds each newly
scraped URL to its exclusion set), the store's own cached URL set, its dedup
gate, and its document count all read exactly as before. -/
theorem C10_main (m : UrlMem) (storeRef : Nat) (h : storeRef < m.length)
    (adds : List String) :
    memGet (adds.foldl
        (fun mm u => addUrlRef mm (getExistingUrlsRef m storeRef).2 u)
        (getExistingUrlsRef m storeRef).1) storeRef = memGet m storeRef
    ∧ (∀ u, dupGateRef (adds.foldl
          (fun mm u => addUrlRef mm (getExistingUrlsRef m storeRef).2 u)
          (getExistingUrlsRef m storeRef).1) storeRef u =
        dupGateRef m storeRef u)
    ∧ countDocumentsRef (adds.foldl
          (fun mm u => addUrlRef mm (getExistingUrlsRef m storeRef).2 u)
          (getExistingUrlsRef m storeRef).1) storeRef =
        countDocumentsRef m storeRef := by
  have hne : (getExistingUrlsRef m storeRef).2 ≠ storeRef := by
    unfold getExistingUrlsRef memAlloc
    omega
  have hget : memGet (adds.foldl
      (fun mm u => addUrlRef mm (getExistingUrlsRef m storeRef).2 u)
      (getExistingUrlsRef m storeRef).1) storeRef = memGet m storeRef := by
    rw [memGet_addFold_ne _ adds _ _ hne]
    exact memGet_alloc_lt m _ storeRef h
  refine ⟨hget, fun u => ?_, ?_⟩
  · unfold dupGateRef
    rw [hget]
  · unfold countDocumentsRef
    rw [hget]

/-- C10 witness: a concrete store cell and a concrete mutation sequence. -/
theorem C10_witness :
    (0 < ([["https://a/u1"]] : UrlMem).length)
    ∧ memGet
        (["https://a/u2", "https://a/u3"].foldl
          (fun mm u =>
            addUrlRef mm (getExistingUrlsRef [["https://a/u1"]] 0).2 u)
          (getExistingUrlsRef [["https://a/u1"]] 0).1) 0 =
      memGet [["https://a/u1"]] 0 :=
  ⟨by decide,
   (C10_main [["https://a/u1"]] 0 (by decide)
     ["https://a/u2", "https://a/u3"]).1⟩

/-! ## C7: concurrency bound and minimum start interval -/

/-- A granted step keeps the in-flight count within the semaphore bound. -/
theorem rlStep_inFlight_le (N : Nat) (iv : ℚ) (st st' : RLState)
    (e : RLEvent) (h : rlStep N iv st e = some st')
    (hle : st.inFlight ≤ N) : st'.inFlight ≤ N := by
  cases e with
  | acq now fin =>
    simp only [rlStep] at h
    split_ifs at h with hc
    cases h
    exact hc.1
  | rel =>
    simp only [rlStep] at h
    split_ifs at h
    cases h
    simp only
    omega

/-- Along a successful run the in-flight count stays within the bound. -/
theorem rlRunFrom_inFlight (N : Nat) (iv : ℚ) :
    ∀ (evts : List RLEvent) (st st' : RLState),
      st.inFlight ≤ N → rlRunFrom N iv st evts = some st' →
      st'.inFlight ≤ N
  | [], _, _, hle, h => by
    cases h
    exact hle
  | e :: rest, st, st', hle, h => by
    unfold rlRunFrom at h
    cases hs : rlStep N iv st e with
    | none => rw [hs] at h; cases h
    | some st2 =>
      rw [hs] at h
      exact rlRunFrom_inFlight N iv rest st2 st'
        (rlStep_inFlight_le N iv st st2 e hs hle) h

/-- Every prefix of a successful run succeeds. -/
theorem rlRunFrom_take (N : Nat) (iv : ℚ) :
    ∀ (evts : List RLEvent) (st st' : RLState) (k : Nat),
      rlRunFrom N iv st evts = some st' →
      ∃ stk, rlRunFrom N iv st (evts.take k) = some stk
  | _, st, _, 0, _ => ⟨st, rfl⟩
  | [], st, _, _ + 1, _ => ⟨st, rfl⟩
  | e :: rest, st, st', k + 1, h => by
    unfold rlRunFrom at h
    cases hs : rlStep N iv st e with
    | none => rw [hs] at h; cases h
    | some st2 =>
      rw [hs] at h
      obtain ⟨stk, hk⟩ := rlRunFrom_take N iv rest st2 st' k h
      exact ⟨stk, by simpa [rlRunFrom, hs] using hk⟩

/-- Along a successful run, the recorded start of each granted acquisition
lies at least the minimum interval after the previous recorded start,
anchored at the state's current last start. -/
theorem rlRunFrom_chain (N : Nat) (iv : ℚ) :
    ∀ (evts : List RLEvent) (st st' : RLState),
      rlRunFrom N iv st evts = some st' →
      List.Chain' (fun a b => a + iv ≤ b) (st.lastStart :: startsOf evts)
  | [], _, _, _ => List.chain'_singleton _
  | e :: rest, st, st', h => by
    unfold rlRunFrom at h
    cases hs : rlStep N iv st e with
    | none => rw [hs] at h; cases h
    | some st2 =>
      rw [hs] at h
      have ih := rlRunFrom_chain N iv rest st2 st' h
      cases e with
      | acq now fin =>
        simp only [rlStep] at hs
        split_ifs at hs with hc
        cases hs
        rcases hc with ⟨_, _, h3, h4⟩
        have hgap : st.lastStart + iv ≤ fin := by
          by_cases hlt : now - st.lastStart < iv
          · exact h4 hlt
          · have : iv ≤ now - st.lastStart := le_of_not_lt hlt
            linarith
        simpa [startsOf, List.chain'_cons] using ⟨hgap, ih⟩
      | rel =>
        simp only [rlStep] at hs
        split_ifs at hs
        cases hs
        simpa [startsOf] using ih

/-- C7: in any valid execution of the rate limiter (semaphore grants only
below the bound; the monotonic clock never decreases; every sleep lasts at
least its requested duration), at most `max_concurrent` operations are
between `acquire` and `release` at every moment, and any two consecutive
recorded start times are at least `1/rate` apart (0.5 s for rate 2), even
when several callers pass the gate in a burst. -/
theorem C7_main (N : Nat) (rate : ℚ) (evts : List RLEvent)
    (st' : RLState) (h : rlRun N rate evts = some st') :
    (∀ k, ∃ stk, rlRun N rate (evts.take k) = some stk ∧ stk.inFlight ≤ N)
    ∧ List.Chain' (fun a b => a + 1 / rate ≤ b) (startsOf evts) := by
  constructor
  · intro k
    obtain ⟨stk, hk⟩ := rlRunFrom_take N (1 / rate) evts rlInit st' k h
    exact ⟨stk, hk,
      rlRunFrom_inFlight N (1 / rate) (evts.take k) rlInit stk
        (Nat.zero_le N) hk⟩
  · exact (rlRunFrom_chain N (1 / rate) evts rlInit st' h).tail

/-- C7 witness: the bound and the start-interval chain on a concrete valid
trace with `max_concurrent = 3`, `rate = 2`. -/
theorem C7_witness :
    rlRun 3 2 evtsW7 = some ⟨2, 3 / 2, 3 / 2⟩
    ∧ ((∀ k, ∃ stk, rlRun 3 2 (evtsW7.take k) = some stk
          ∧ stk.inFlight ≤ 3)
       ∧ List.Chain' (fun a b => a + 1 / 2 ≤ b) (startsOf evtsW7)) := by
  have h : rlRun 3 2 evtsW7 = some ⟨2, 3 / 2, 3 / 2⟩ := by
    norm_num [rlRun, rlRunFrom, rlStep, evtsW7, rlInit]
  have main := C7_main 3 2 evtsW7 ⟨2, 3 / 2, 3 / 2⟩ h
  refine ⟨h, main.1, ?_⟩
  have := main.2
  norm_num at this ⊢
  exact this

/-! ## C3: idempotent re-run -/

/-- Membership after a set `add`. -/
theorem mem_insertUrl {s : List String} {v u : String} :
    u ∈ insertUrl s v ↔ u ∈ s ∨ u = v := by
  unfold insertUrl
  split_ifs with h
  · constructor
    · exact Or.inl
    · rintro (hu | rfl)
      · exact hu
      · exact h
  · simp

/-- The function `_ensure_url_cache` returns the cache contents. -/
theorem ensureCache_fst (st : StoreState) (t : DocType) :
    (st.ensureCache t).1 = cacheContents st t := by
  unfold StoreState.ensureCache cacheContents
  cases h : st.cache t <;> simp [h]

/-- The function `_ensure_url_cache` leaves every category's cache contents as they
were. -/
theorem ensureCache_cacheContents (st : StoreState) (t t' : DocType) :
    cacheContents (st.ensureCache t).2 t' = cacheContents st t' := by
  unfold StoreState.ensureCache cacheContents
  cases h : st.cache t with
  | some cs => simp [h]
  | none =>
    by_cases ht : t' = t
    · subst ht
      simp [h, Function.update_same]
    · simp [h, Function.update_noteq ht]

/-- The function `save_document` accepts exactly when the URL is new to the category
cache and the append succeeds. -/
theorem saveDocument_accepted_iff (env : Nat → Bool) (st : StoreState)
    (w : Nat) (d : FedDocument) :
    (saveDocument env st w d).1 = true ↔
      d.url ∉ cacheContents st d.doc_type ∧ env w = true := by
  simp only [saveDocument, ensureCache_fst]
  split_ifs with hdup henv
  · simp [hdup]
  · simp [hdup, henv]
  · simp [henv]

/-- How `save_document` changes its own category's cache contents. -/
theorem saveDocument_cc_self (env : Nat → Bool) (st : StoreState) (w : Nat)
    (d : FedDocument) :
    cacheContents (saveDocument env st w d).2.1 d.doc_type =
      if (saveDocument env st w d).1 = true
      then insertUrl (cacheContents st d.doc_type) d.url
      else cacheContents st d.doc_type := by
  by_cases hdup : d.url ∈ cacheContents st d.doc_type
  · simp only [saveDocument, ensureCache_fst]
    rw [if_pos hdup]
    simp [ensureCache_cacheContents]
  · by_cases henv : env w = true
    · simp only [saveDocument, ensureCache_fst]
      rw [if_neg hdup, if_pos henv]
      simp [cacheContents, Function.update_same]
    · simp only [saveDocument, ensureCache_fst]
      rw [if_neg hdup, if_neg henv]
      simp [ensureCache_cacheContents]

/-- The function `save_document` leaves every other category's cache contents
unchanged. -/
theorem saveDocument_cc_of_ne (env : Nat → Bool) (st : StoreState) (w : Nat)
    (d : FedDocument) (t : DocType) (ht : t ≠ d.doc_type) :
    cacheContents (saveDocument env st w d).2.1 t = cacheContents st t := by
  by_cases hdup : d.url ∈ cacheContents st d.doc_type
  · simp only [saveDocument, ensureCache_fst]
    rw [if_pos hdup]
    simp [ensureCache_cacheContents]
  · by_cases henv : env w = true
    · simp only [saveDocument, ensureCache_fst]
      rw [if_neg hdup, if_pos henv]
      show cacheContents _ t = _
      unfold cacheContents
      simp only [Function.update_noteq ht]
      exact ensureCache_cacheContents st d.doc_type t
    · simp only [saveDocument, ensureCache_fst]
      rw [if_neg hdup, if_neg henv]
      simp [ensureCache_cacheContents]

/-- The function `save_document` can only grow a category's cache contents. -/
theorem saveDocument_cc_mono (env : Nat → Bool) (st : StoreState) (w : Nat)
    (d : FedDocument) (t : DocType) (u : String)
    (h : u ∈ cacheContents st t) :
    u ∈ cacheContents (saveDocument env st w d).2.1 t := by
  by_cases ht : t = d.doc_type
  · subst ht
    rw [saveDocument_cc_self]
    split_ifs
    · exact mem_insertUrl.2 (Or.inl h)
    · exact h
  · rw [saveDocument_cc_of_ne env st w d t ht]
    exact h

/-- With a succeeding append, the saved document's URL is cached
afterwards. -/
theorem saveDocument_mem_after (env : Nat → Bool) (st : StoreState) (w : Nat)
    (d : FedDocument) (henv : env w = true) :
    d.url ∈ cacheContents (saveDocument env st w d).2.1 d.doc_type := by
  by_cases hdup : d.url ∈ cacheContents st d.doc_type
  · exact saveDocument_cc_mono env st w d d.doc_type d.url hdup
  · rw [saveDocument_cc_self, if_pos
      ((saveDocument_accepted_iff env st w d).2 ⟨hdup, henv⟩)]
    exact mem_insertUrl.2 (Or.inr rfl)

/-- A driving-loop step can only grow every category's cache contents. -/
theorem scrapeStep_cc_mono (fetch : String → FetchOutcome) (env : Nat → Bool)
    (rs : RunState) (url : String) (t : DocType) (u : String)
    (h : u ∈ cacheContents rs.store t) :
    u ∈ cacheContents (scrapeStep fetch env rs url).store t := by
  by_cases hx : url ∈ rs.excl
  · simpa [scrapeStep, hx] using h
  · cases hf : fetch url with
    | ok d =>
      simp only [scrapeStep, hx, if_neg, hf]
      exact saveDocument_cc_mono env rs.store rs.wctr d t u h
    | skipped => simpa [scrapeStep, hx, hf] using h
    | errored => simpa [scrapeStep, hx, hf] using h

/-- The driving loop can only grow every category's cache contents. -/
theorem scrapeFold_cc_mono (fetch : String → FetchOutcome) (env : Nat → Bool) :
    ∀ (urls : List String) (rs : RunState) (t : DocType) (u : String),
      u ∈ cacheContents rs.store t →
      u ∈ cacheContents ((urls.foldl (scrapeStep fetch env) rs)).store t
  | [], _, _, _, h => h
  | v :: vs, rs, t, u, h =>
    scrapeFold_cc_mono fetch env vs _ t u
      (scrapeStep_cc_mono fetch env rs v t u h)

/-- After its own step, a URL that parsed into a document is in the
exclusion set. -/
theorem scrapeStep_mem_excl (fetch : String → FetchOutcome) (env : Nat → Bool)
    (rs : RunState) (v : String) (d : FedDocument)
    (hf : fetch v = FetchOutcome.ok d) :
    v ∈ (scrapeStep fetch env rs v).excl := by
  by_cases hx : v ∈ rs.excl
  · simp [scrapeStep, hx]
  · simp only [scrapeStep, hx, if_neg, hf]
    exact mem_insertUrl.2 (Or.inr rfl)

/-- With all appends succeeding and an adapter that records the fetched URL
and its own category, one loop step keeps the exclusion set and the category
cache in agreement. -/
theorem scrapeStep_sync (fetch : String → FetchOutcome) (env : Nat → Bool)
    (t : DocType) (Henv : ∀ n, env n = true)
    (Hurl : ∀ u d, fetch u = FetchOutcome.ok d → d.url = u ∧ d.doc_type = t)
    (rs : RunState) (url : String)
    (hsync : ∀ u, u ∈ rs.excl ↔ u ∈ cacheContents rs.store t) :
    ∀ u, u ∈ (scrapeStep fetch env rs url).excl ↔
      u ∈ cacheContents (scrapeStep fetch env rs url).store t := by
  by_cases hx : url ∈ rs.excl
  · simpa [scrapeStep, hx] using hsync
  · cases hf : fetch url with
    | skipped => simpa [scrapeStep, hx, hf] using hsync
    | errored => simpa [scrapeStep, hx, hf] using hsync
    | ok d =>
      obtain ⟨hu, ht⟩ := Hurl url d hf
      have hnotin : d.url ∉ cacheContents rs.store d.doc_type := by
        rw [hu, ht]
        exact fun hmem => hx ((hsync url).2 hmem)
      have hacc : (saveDocument env rs.store rs.wctr d).1 = true :=
        (saveDocument_accepted_iff env rs.store rs.wctr d).2
          ⟨hnotin, Henv rs.wctr⟩
      have hcc : cacheContents
          (saveDocument env rs.store rs.wctr d).2.1 t =
          insertUrl (cacheContents rs.store t) url := by
        conv_lhs => rw [← ht]
        rw [saveDocument_cc_self, if_pos hacc, hu, ht]
      have hexcl' : (scrapeStep fetch env rs url).excl =
          insertUrl rs.excl url := by
        simp [scrapeStep, hx, hf]
      have hstore' : (scrapeStep fetch env rs url).store =
          (saveDocument env rs.store rs.wctr d).2.1 := by
        simp [scrapeStep, hx, hf]
      intro u
      rw [hexcl', hstore', hcc]
      simp only [mem_insertUrl]
      rw [hsync u]

/-- Along the driving loop, the exclusion set stays in agreement with the
category cache, and every URL that parses into a document ends up cached. -/
theorem scrapeFold_ok_in_cache (fetch : String → FetchOutcome)
    (env : Nat → Bool) (t : DocType) (Henv : ∀ n, env n = true)
    (Hurl : ∀ u d, fetch u = FetchOutcome.ok d → d.url = u ∧ d.doc_type = t) :
    ∀ (urls : List String) (rs : RunState),
      (∀ u, u ∈ rs.excl ↔ u ∈ cacheContents rs.store t) →
      (∀ u, u ∈ (urls.foldl (scrapeStep fetch env) rs).excl ↔
        u ∈ cacheContents ((urls.foldl (scrapeStep fetch env) rs)).store t)
      ∧ ∀ u ∈ urls, (∃ d, fetch u = FetchOutcome.ok d) →
          u ∈ cacheContents ((urls.foldl (scrapeStep fetch env) rs)).store t
  | [], _rs, hsync => ⟨hsync, by simp⟩
  | v :: vs, rs, hsync => by
    have hsync' := scrapeStep_sync fetch env t Henv Hurl rs v hsync
    have ih := scrapeFold_ok_in_cache fetch env t Henv Hurl vs
      (scrapeStep fetch env rs v) hsync'
    refine ⟨ih.1, ?_⟩
    intro u hu hok
    rcases List.mem_cons.1 hu with rfl | hvs
    · obtain ⟨d, hf⟩ := hok
      have hexcl : u ∈ (scrapeStep fetch env rs u).excl :=
        scrapeStep_mem_excl fetch env rs u d hf
      have hcc := (hsync' u).1 hexcl
      rw [List.foldl_cons]
      exact scrapeFold_cc_mono fetch env vs _ t u hcc
    · exact ih.2 u hvs hok

/-- Every URL of a category run that parses into a document is in the
category's cache when the run ends. -/
theorem scrapeType_ok_in_cache (fetch : String → FetchOutcome)
    (env : Nat → Bool) (t : DocType) (urls : List String) (st0 : StoreState)
    (w0 : Nat) (Henv : ∀ n, env n = true)
    (Hurl : ∀ u d, fetch u = FetchOutcome.ok d → d.url = u ∧ d.doc_type = t)
    (u : String) (hu : u ∈ urls)
    (hok : ∃ d, fetch u = FetchOutcome.ok d) :
    u ∈ cacheContents (scrapeType fetch env t urls st0 w0).store t := by
  unfold scrapeType StoreState.getExistingUrls
  have hsync : ∀ v, v ∈ (st0.ensureCache t).1 ↔
      v ∈ cacheContents (st0.ensureCache t).2 t := by
    intro v
    rw [ensureCache_fst, ensureCache_cacheContents]
  exact (scrapeFold_ok_in_cache fetch env t Henv Hurl urls
    { excl := (st0.ensureCache t).1, store := (st0.ensureCache t).2,
      wctr := w0, count := 0, savedCount := 0, rejectedCount := 0 }
    hsync).2 u hu hok

/-- A category run can only grow every category's cache contents. -/
theorem scrapeType_cc_mono (fetch : String → FetchOutcome) (env : Nat → Bool)
    (t : DocType) (urls : List String) (st0 : StoreState) (w0 : Nat)
    (t' : DocType) (u : String) (h : u ∈ cacheContents st0 t') :
    u ∈ cacheContents (scrapeType fetch env t urls st0 w0).store t' := by
  unfold scrapeType StoreState.getExistingUrls
  refine scrapeFold_cc_mono fetch env urls _ t' u ?_
  simpa [ensureCache_cacheContents] using h

/-- A driving loop whose fruitful URLs are all excluded does nothing. -/
theorem scrapeFold_frozen (fetch : String → FetchOutcome) (env : Nat → Bool) :
    ∀ (urls : List String) (rs : RunState),
      (∀ u ∈ urls, (∃ d, fetch u = FetchOutcome.ok d) → u ∈ rs.excl) →
      urls.foldl (scrapeStep fetch env) rs = rs
  | [], _, _ => rfl
  | v :: vs, rs, hall => by
    have hstep : scrapeStep fetch env rs v = rs := by
      by_cases hx : v ∈ rs.excl
      · simp [scrapeStep, hx]
      · cases hf : fetch v with
        | ok d => exact absurd (hall v (by simp) ⟨d, hf⟩) hx
        | skipped => simp [scrapeStep, hx, hf]
        | errored => simp [scrapeStep, hx, hf]
    rw [List.foldl_cons, hstep]
    exact scrapeFold_frozen fetch env vs rs
      (fun u hu => hall u (List.mem_cons_of_mem v hu))

/-- A category run whose fruitful URLs are already cached reports zero. -/
theorem scrapeType_second_zero (fetch : String → FetchOutcome)
    (env : Nat → Bool) (t : DocType) (urls : List String) (st0 : StoreState)
    (w0 : Nat)
    (hall : ∀ u ∈ urls, (∃ d, fetch u = FetchOutcome.ok d) →
      u ∈ cacheContents st0 t) :
    (scrapeType fetch env t urls st0 w0).count = 0 := by
  unfold scrapeType StoreState.getExistingUrls
  rw [scrapeFold_frozen fetch env urls _ ?hfroz]
  case hfroz =>
    intro u hu hok
    show u ∈ (st0.ensureCache t).1
    rw [ensureCache_fst]
    exact hall u hu hok

/-- After a full `scrape_all`, every fruitful URL of every processed
category is cached (and previously cached URLs remain cached). -/
theorem scrapeAllFold_ok_in_cache (fetch : DocType → String → FetchOutcome)
    (env : Nat → Bool) (enum : DocType → List String)
    (Henv : ∀ n, env n = true)
    (Hurl : ∀ t u d, fetch t u = FetchOutcome.ok d →
      d.url = u ∧ d.doc_type = t) :
    ∀ (types : List DocType)
      (acc : List (DocType × Nat) × StoreState × Nat) (t : DocType)
      (u : String),
      ((t ∈ types ∧ u ∈ enum t ∧ ∃ d, fetch t u = FetchOutcome.ok d)
        ∨ u ∈ cacheContents acc.2.1 t) →
      u ∈ cacheContents
        ((types.foldl (scrapeAllStep fetch env enum) acc)).2.1 t
  | [], _acc, t, u, h => by
    rcases h with ⟨hmem, _⟩ | h
    · cases hmem
    · exact h
  | t0 :: ts, acc, t, u, h => by
    rw [List.foldl_cons]
    apply scrapeAllFold_ok_in_cache fetch env enum Henv Hurl ts
      (scrapeAllStep fetch env enum acc t0) t u
    rcases h with ⟨hmem, hu, hok⟩ | h
    · rcases List.mem_cons.1 hmem with rfl | hts
      · right
        exact scrapeType_ok_in_cache (fetch t) env t (enum t) acc.2.1
          acc.2.2 Henv (fun v d hv => Hurl t v d hv) u hu hok
      · left
        exact ⟨hts, hu, hok⟩
    · right
      exact scrapeType_cc_mono (fetch t0) env t0 (enum t0) acc.2.1 acc.2.2
        t u h

/-- A full `scrape_all` whose fruitful URLs are all already cached reports
zero for every category, in order. -/
theorem scrapeAllFold_second_zero (fetch : DocType → String → FetchOutcome)
    (env : Nat → Bool) (enum : DocType → List String) :
    ∀ (types : List DocType)
      (acc : List (DocType × Nat) × StoreState × Nat),
      (∀ t u, t ∈ types → u ∈ enum t →
        (∃ d, fetch t u = FetchOutcome.ok d) →
        u ∈ cacheContents acc.2.1 t) →
      (types.foldl (scrapeAllStep fetch env enum) acc).1 =
        acc.1 ++ types.map (fun t => (t, 0))
  | [], acc, _ => by simp
  | t0 :: ts, acc, hall => by
    have hz : (scrapeType (fetch t0) env t0 (enum t0) acc.2.1
        acc.2.2).count = 0 :=
      scrapeType_second_zero (fetch t0) env t0 (enum t0) acc.2.1 acc.2.2
        (fun u hu hok => hall t0 u (List.mem_cons_self t0 ts) hu hok)
    rw [List.foldl_cons,
      scrapeAllFold_second_zero fetch env enum ts
        (scrapeAllStep fetch env enum acc t0) ?hall]
    · simp [scrapeAllStep, hz]
    case hall =>
      intro t u ht hu hok
      exact scrapeType_cc_mono (fetch t0) env t0 (enum t0) acc.2.1 acc.2.2
        t u (hall t u (List.mem_cons_of_mem t0 ht) hu hok)

/-- C3 (amended): when no storage write fails and every yielded document
records the URL it was fetched under and the category of its adapter,
running `scrape_all` twice over the same URL universe with the store carried
over yields count 0 for every category on the second run: every fruitful URL
ends up in the cache loaded as the second run's exclusion set. Without these
provisos the claim is false (see the counterexample): a redirected document
URL or a failed write is re-fetched and re-counted by the second run. -/
theorem C3_main (fetch : DocType → String → FetchOutcome)
    (env : Nat → Bool) (enum : DocType → List String) (types : List DocType)
    (st0 : StoreState) (w0 : Nat) (Henv : ∀ n, env n = true)
    (Hurl : ∀ t u d, fetch t u = FetchOutcome.ok d →
      d.url = u ∧ d.doc_type = t) :
    (scrapeAll fetch env enum types
      (scrapeAll fetch env enum types st0 w0).2.1
      (scrapeAll fetch env enum types st0 w0).2.2).1 =
      types.map (fun t => (t, 0)) := by
  have hP1 : ∀ t u, t ∈ types → u ∈ enum t →
      (∃ d, fetch t u = FetchOutcome.ok d) →
      u ∈ cacheContents (scrapeAll fetch env enum types st0 w0).2.1 t := by
    intro t u ht hu hok
    unfold scrapeAll
    exact scrapeAllFold_ok_in_cache fetch env enum Henv Hurl types
      ([], st0, w0) t u (Or.inl ⟨ht, hu, hok⟩)
  have h2 := scrapeAllFold_second_zero fetch env enum types
    ([], (scrapeAll fetch env enum types st0 w0).2.1,
     (scrapeAll fetch env enum types st0 w0).2.2)
    (fun t u ht hu hok => hP1 t u ht hu hok)
  simpa [scrapeAll] using h2

/-- C3 counterexample: running `scrape_all` twice over the same one-URL
universe with the store untouched in between reports count 1, not 0, on the
second run — once when the document records a post-redirect URL different
from the enumerated one (first conjunct), and once when the only append of
the first run fails with a storage error (second conjunct). In both runs
nothing separates the two executions except the store the first run left
behind. -/
theorem C3_counterexample :
    run2S1.1 = [(DocType.statement, 1)]
    ∧ run2S2.1 = [(DocType.statement, 1)] := by
  constructor
  · decide
  · decide

/-- C3 witness: the amended statement evaluated on a concrete one-URL
universe with succeeding writes and redirect-free documents. -/
theorem C3_witness :
    (envTrue 0 = true
     ∧ fetchS2 DocType.statement "https://a/u" =
         FetchOutcome.ok (mkDoc "https://a/u" DocType.statement))
    ∧ (scrapeAll fetchS2 envTrue enumS [DocType.statement]
        (scrapeAll fetchS2 envTrue enumS [DocType.statement]
          (mkStore [] []) 0).2.1
        (scrapeAll fetchS2 envTrue enumS [DocType.statement]
          (mkStore [] []) 0).2.2).1 = [(DocType.statement, 0)] :=
  have hurl : ∀ t u d, fetchS2 t u = FetchOutcome.ok d →
      d.url = u ∧ d.doc_type = t := by
    intro t u d h
    unfold fetchS2 at h
    split_ifs at h with hc
    cases h
    exact ⟨hc.2.symm, hc.1.symm⟩
  ⟨⟨rfl, by decide⟩,
   C3_main fetchS2 envTrue enumS [DocType.statement] (mkStore [] []) 0
     (fun _ => rfl) hurl⟩

/-! ## C8: content-addressed identifier derivation -/

/-- A big-endian byte rendering has the requested width. -/
theorem toBytesBE_length (k n : Nat) : (toBytesBE k n).length = k := by
  simp [toBytesBE]

/-- Every rendered byte is below 256. -/
theorem toBytesBE_lt (k n : Nat) : ∀ b ∈ toBytesBE k n, b < 256 := by
  intro b hb
  simp only [toBytesBE, List.mem_map] at hb
  obtain ⟨i, _, rfl⟩ := hb
  exact Nat.mod_lt _ (by norm_num)

/-- The digest rendering of a hash state is 32 bytes long. -/
theorem stateBytes_length (st : ShaState) : (stateBytes st).length = 32 := by
  simp [stateBytes, toBytesBE_length]

/-- Every digest byte of a hash state is below 256. -/
theorem stateBytes_lt (st : ShaState) : ∀ b ∈ stateBytes st, b < 256 := by
  intro b hb
  unfold stateBytes at hb
  simp only [List.mem_append, or_assoc] at hb
  rcases hb with h | h | h | h | h | h | h | h <;>
    exact toBytesBE_lt _ _ b h

/-- A SHA-256 digest is 32 bytes long. -/
theorem sha256Bytes_length (m : List Nat) : (sha256Bytes m).length = 32 :=
  stateBytes_length _

/-- Every SHA-256 digest byte is below 256. -/
theorem sha256Bytes_lt (m : List Nat) : ∀ b ∈ sha256Bytes m, b < 256 :=
  stateBytes_lt _

/-- A list of length at least four starts with four explicit elements. -/
theorem exists_four_cons : ∀ (l : List Nat), 4 ≤ l.length →
    ∃ b0 b1 b2 b3 t, l = b0 :: b1 :: b2 :: b3 :: t
  | b0 :: b1 :: b2 :: b3 :: t, _ => ⟨b0, b1, b2, b3, t, rfl⟩
  | [], h => by simp at h
  | [_], h => by simp at h
  | [_, _], h => by simp at h
  | [_, _, _], h => by simp at h

/-- The big-endian value of four bytes. -/
theorem bytesValBE_four (b0 b1 b2 b3 : Nat) :
    bytesValBE [b0, b1, b2, b3] =
      ((b0 * 256 + b1) * 256 + b2) * 256 + b3 := by
  simp [bytesValBE]

/-- The digest word is a 32-bit value. -/
theorem digestWord_lt (c : String) : digestWord c < 4294967296 := by
  obtain ⟨b0, b1, b2, b3, t, hl⟩ :=
    exists_four_cons (sha256Bytes (strBytes c))
      (by rw [sha256Bytes_length]; norm_num)
  have h0 : b0 < 256 := sha256Bytes_lt _ b0 (by rw [hl]; simp)
  have h1 : b1 < 256 := sha256Bytes_lt _ b1 (by rw [hl]; simp)
  have h2 : b2 < 256 := sha256Bytes_lt _ b2 (by rw [hl]; simp)
  have h3 : b3 < 256 := sha256Bytes_lt _ b3 (by rw [hl]; simp)
  unfold digestWord
  rw [hl]
  have ht4 : (b0 :: b1 :: b2 :: b3 :: t).take 4 = [b0, b1, b2, b3] := rfl
  rw [ht4, bytesValBE_four]
  omega

/-- The first eight hex characters of a digest rendering come from its first
four bytes. -/
theorem hexChars_take8 (b0 b1 b2 b3 : Nat) (t : List Nat) :
    (((b0 :: b1 :: b2 :: b3 :: t).map byteHexChars).flatten).take 8 =
      byteHexChars b0 ++ byteHexChars b1 ++ byteHexChars b2 ++
        byteHexChars b3 := by
  simp [byteHexChars]

/-- Identical kept hash characters give identical identifiers (whatever the
other fields, which enter the identifier only through category and date). -/
theorem docId_eq_of_take8_eq (url title raw ts : String) (t : DocType)
    (dt : FedDate) (sp : Option String) (hp : Bool) (pu : Option String)
    (c1 c2 : String)
    (h : (sha256HexChars c1).take 8 = (sha256HexChars c2).take 8) :
    (FedDocument.create url t title dt c1 raw sp hp pu ts).doc_id =
      (FedDocument.create url t title dt c2 raw sp hp pu ts).doc_id := by
  simp only [FedDocument.create]
  rw [h]

/-- C8 counterexample: the claim that any change to the content changes the
identifier is false. The identifier keeps only eight hex characters (32
bits) of the hash, so among the infinitely many contents `"a"^n` two
distinct ones collide on the kept prefix by the pigeonhole principle and
receive byte-identical identifiers for the same category and date. -/
theorem C8_counterexample :
    ¬ (∀ c1 c2 : String, c1 ≠ c2 →
      (FedDocument.create "https://a" .statement "T" ⟨2023, 11, 1⟩ c1 "h"
        none false none "ts").doc_id ≠
      (FedDocument.create "https://a" .statement "T" ⟨2023, 11, 1⟩ c2 "h"
        none false none "ts").doc_id) := by
  intro hclaim
  obtain ⟨n, m, hnm, heq⟩ := Finite.exists_ne_map_eq_of_infinite
    (fun k : Nat =>
      (⟨digestWord (aStr k), digestWord_lt (aStr k)⟩ : Fin 4294967296))
  have hW : digestWord (aStr n) = digestWord (aStr m) :=
    congrArg Fin.val heq
  obtain ⟨a0, a1, a2, a3, ta, ha⟩ :=
    exists_four_cons (sha256Bytes (strBytes (aStr n)))
      (by rw [sha256Bytes_length]; norm_num)
  obtain ⟨b0, b1, b2, b3, tb, hb⟩ :=
    exists_four_cons (sha256Bytes (strBytes (aStr m)))
      (by rw [sha256Bytes_length]; norm_num)
  have ha0 : a0 < 256 := sha256Bytes_lt _ a0 (by rw [ha]; simp)
  have ha1 : a1 < 256 := sha256Bytes_lt _ a1 (by rw [ha]; simp)
  have ha2 : a2 < 256 := sha256Bytes_lt _ a2 (by rw [ha]; simp)
  have ha3 : a3 < 256 := sha256Bytes_lt _ a3 (by rw [ha]; simp)
  have hb0 : b0 < 256 := sha256Bytes_lt _ b0 (by rw [hb]; simp)
  have hb1 : b1 < 256 := sha256Bytes_lt _ b1 (by rw [hb]; simp)
  have hb2 : b2 < 256 := sha256Bytes_lt _ b2 (by rw [hb]; simp)
  have hb3 : b3 < 256 := sha256Bytes_lt _ b3 (by rw [hb]; simp)
  have hWa : digestWord (aStr n) =
      ((a0 * 256 + a1) * 256 + a2) * 256 + a3 := by
    unfold digestWord
    rw [ha]
    have ht4 : (a0 :: a1 :: a2 :: a3 :: ta).take 4 = [a0, a1, a2, a3] := rfl
    rw [ht4, bytesValBE_four]
  have hWb : digestWord (aStr m) =
      ((b0 * 256 + b1) * 256 + b2) * 256 + b3 := by
    unfold digestWord
    rw [hb]
    have ht4 : (b0 :: b1 :: b2 :: b3 :: tb).take 4 = [b0, b1, b2, b3] := rfl
    rw [ht4, bytesValBE_four]
  rw [hWa, hWb] at hW
  have hcomp : a0 = b0 ∧ a1 = b1 ∧ a2 = b2 ∧ a3 = b3 := by omega
  have h8 : (sha256HexChars (aStr n)).take 8 =
      (sha256HexChars (aStr m)).take 8 := by
    unfold sha256HexChars
    rw [ha, hb, hexChars_take8, hexChars_take8,
      hcomp.1, hcomp.2.1, hcomp.2.2.1, hcomp.2.2.2]
  have hne : aStr n ≠ aStr m := by
    intro he
    apply hnm
    have hlen := congrArg (fun s : String => s.data.length) he
    simpa [aStr] using hlen
  exact hclaim (aStr n) (aStr m) hne
    (docId_eq_of_take8_eq "https://a" "T" "h" "ts" .statement ⟨2023, 11, 1⟩
      none false none (aStr n) (aStr m) h8)

/-- C8 (amended): the identifier is the deterministic content-addressing
`category ++ "_" ++ YYYYMMDD ++ "_" ++ first8(sha256-hex(content))`:
computing it twice on identical category, date and content gives
byte-identical results whatever the acquisition timestamps, the stored
fingerprint is the full SHA-256 hex digest, and a change to the content
changes the identifier whenever it changes the kept first eight hash
characters — but since only eight hex characters are kept, distinct
contents can collide (see the counterexample). -/
theorem C8_main (url title raw ts ts2 : String) (t : DocType)
    (dt : FedDate) (sp : Option String) (hp : Bool) (pu : Option String)
    (c : String) :
    (FedDocument.create url t title dt c raw sp hp pu ts).doc_id =
      (FedDocument.create url t title dt c raw sp hp pu ts2).doc_id
    ∧ (FedDocument.create url t title dt c raw sp hp pu ts).doc_id =
        t.str ++ "_" ++ dt.fmtYYYYMMDD ++ "_" ++
          String.mk ((sha256HexChars c).take 8)
    ∧ (FedDocument.create url t title dt c raw sp hp pu ts).content_hash =
        sha256HexOfString c
    ∧ ∀ c2 : String,
        (sha256HexChars c).take 8 ≠ (sha256HexChars c2).take 8 →
        (FedDocument.create url t title dt c raw sp hp pu ts).doc_id ≠
          (FedDocument.create url t title dt c2 raw sp hp pu ts).doc_id := by
  refine ⟨rfl, rfl, rfl, ?_⟩
  intro c2 hne heq
  apply hne
  have h1 := String.ext_iff.1 heq
  simp only [FedDocument.create, String.data_append] at h1
  exact List.append_cancel_left h1

/-- C8 witness: the sensitivity conjunct evaluated on two concrete contents
whose kept hash characters differ. -/
theorem C8_witness :
    ((sha256HexChars "a").take 8 ≠ (sha256HexChars "b").take 8)
    ∧ (FedDocument.create "https://a" .statement "T" ⟨2023, 11, 1⟩ "a" "h"
        none false none "ts").doc_id ≠
      (FedDocument.create "https://a" .statement "T" ⟨2023, 11, 1⟩ "b" "h"
        none false none "ts").doc_id :=
  ⟨by decide,
   (C8_main "https://a" "T" "h" "ts" "ts" .statement ⟨2023, 11, 1⟩
     none false none "a").2.2.2 "b" (by decide)⟩

end FedRag
